import Mathlib

/-!
Verification of the NRL-ENGINE evaluation core against its specification.

The Python modules under `nrl_engine/` are shallowly embedded as Lean
definitions:

* `nrl_engine/features/pit_validator.py` — `PITValidator.validate`
* `nrl_engine/evaluation/folds.py` — `create_anchored_folds`, `create_rolling_folds`
* `nrl_engine/evaluation/odds_gate.py` — `_compute_market_slope`, `enforce_odds_orientation`
* `nrl_engine/evaluation/metrics.py` — `devig_odds`, `compute_brier`, `compute_auc`,
  `compute_accuracy`, `compute_clv`, `compute_calibration`, `compute_market_baseline`
* `nrl_engine/evaluation/harness.py` — `EvaluationHarness._prepare_data`, the fold stage
* `nrl_engine/data/loader.py` — `DataLoader._validate_and_prepare`
* `nrl_engine/features/engineer.py` — `FeatureEngineer`

Modelling conventions: pandas timestamps are integers (`Int`), an unparsable
date (`NaT` after `pd.to_datetime(..., errors="coerce")`) is `Option.none`;
machine floats are `ℚ` (all arithmetic on the verified paths is exact);
a pandas column that may be absent from a frame is a `Bool` flag on the frame
plus an `Option` field on each row; a Python `raise` is `Except.error` /
`Option.none`.  Iterative float procedures with no exact semantics
(sklearn's `LogisticRegression.fit`, `roc_auc_score`, `calibration_curve`,
`np.corrcoef`, `np.std`, real exponentiation `x ** 2.5`) are oracle
parameters: every theorem below holds for an arbitrary choice of those
oracles, so nothing depends on their numeric behaviour.
-/

namespace NRL

/-! ## Point-in-time validator (`pit_validator.py`) -/

/-- One recorded `PITViolation`: feature name, printed as-of timestamp,
number of future rows blocked. -/
structure PITViolation where
  featureName : String
  asofTimestamp : String
  futureRowsBlocked : Nat
deriving DecidableEq, Repr

/-- Mutable state of a `PITValidator`: the violation log and the call counter. -/
structure PITState where
  violations : List PITViolation
  callCount : Nat
deriving DecidableEq, Repr

/-- The fresh state built by `PITValidator.__init__`. -/
def pitInit : PITState := ⟨[], 0⟩

/-- The mask `dates >= asof_ts` for one row: a row counts as future when both
the cutoff and the row date parsed and the date is `>=` the cutoff.  A `NaT`
on either side compares false, exactly as in pandas. -/
def isFutureRow {α : Type} (dateOf : α → Option Int) (cutoff : Option Int) (r : α) : Bool :=
  match cutoff, dateOf r with
  | some c, some d => decide (c ≤ d)
  | _, _ => false

/-- `PITValidator.validate`: bump the call counter; return early on an empty
frame or a frame without the date column; otherwise log a violation when any
future rows exist and return only the non-future rows. -/
def pitValidate {α : Type} (dateOf : α → Option Int) (hasDateCol : Bool) (st : PITState)
    (featureName : String) (rows : List α) (cutoff : Option Int) : PITState × List α :=
  let st1 : PITState := ⟨st.violations, st.callCount + 1⟩
  if rows.isEmpty then (st1, rows)
  else if !hasDateCol then (st1, rows)
  else
    let futureCount := (rows.filter (isFutureRow dateOf cutoff)).length
    let st2 : PITState :=
      if 0 < futureCount then
        ⟨st1.violations ++ [⟨featureName, toString cutoff, futureCount⟩], st1.callCount⟩
      else st1
    (st2, rows.filter (fun r => !(isFutureRow dateOf cutoff r)))

/-- A row of a frame fed to the validator: a (possibly unparsable) date plus
an opaque payload standing for all other columns. -/
structure PRow where
  date : Option Int
  payload : Nat
deriving DecidableEq, Repr

/-- A frame fed to the validator: whether the named date column is present,
and the rows. -/
structure PFrame where
  hasDateCol : Bool
  rows : List PRow
deriving DecidableEq, Repr

/-! ## Configuration (`config.py`) — the fields the evaluation core reads. -/

structure Config where
  rollingWindows : List Nat := [3, 5, 10]
  minGamesForRolling : Nat := 3
  pythagoreanExponent : ℚ := mkRat 5 2
  featureVersion : String := "v1.0.0"
  minTrainSeasons : Nat := 2
  minTestMatches : Nat := 20
  oddsMinHealthySlope : ℚ := mkRat 3 10
  oddsMinRows : Nat := 20
  oddsAutoFix : Bool := true
  oddsFailOnAmbiguous : Bool := true

/-- `DEFAULT_CONFIG` from `config.py`. -/
def defaultConfig : Config := {}

/-! ## Fold generation (`folds.py`) -/

/-- A row of the per-season dataset: its `season` value plus an opaque
payload standing for all other columns. -/
structure SRow where
  season : Nat
  payload : Nat
deriving DecidableEq, Repr

/-- One produced fold `(fold_id, test_season, train_df, test_df)`. -/
structure Fold where
  foldId : Nat
  testSeason : Nat
  train : List SRow
  test : List SRow
deriving DecidableEq, Repr

/-- `sorted(df["season"].dropna().unique())`: the distinct seasons present,
ascending. -/
def availableSeasons (rows : List SRow) : List Nat :=
  ((rows.map SRow.season).dedup).insertionSort (· ≤ ·)

/-- Loop body of `create_anchored_folds`: walk the candidate test seasons,
skipping candidates with too few training seasons or too few test matches,
numbering accepted folds from 1. -/
def anchoredFoldsAux (rows : List SRow) (avail : List Nat) (minTrain minTest : Nat) :
    List Nat → Nat → List Fold
  | [], _ => []
  | t :: ts, fid =>
    let trainSeasons := avail.filter (fun s => decide (s < t))
    if trainSeasons.length < minTrain then
      anchoredFoldsAux rows avail minTrain minTest ts fid
    else
      let trainDf := rows.filter (fun r => trainSeasons.contains r.season)
      let testDf := rows.filter (fun r => decide (r.season = t))
      if testDf.length < minTest then
        anchoredFoldsAux rows avail minTrain minTest ts fid
      else
        ⟨fid + 1, t, trainDf, testDf⟩ :: anchoredFoldsAux rows avail minTrain minTest ts (fid + 1)

/-- `create_anchored_folds`: train on every prior season.  `testSeasons = none`
auto-detects candidates as the seasons with at least `minTrain` strictly
earlier seasons. -/
def createAnchoredFolds (rows : List SRow) (testSeasons : Option (List Nat))
    (minTrain minTest : Nat) : List Fold :=
  let avail := availableSeasons rows
  let ts :=
    match testSeasons with
    | some l => l
    | none => avail.filter (fun s => decide (minTrain ≤ (avail.filter (fun p => decide (p < s))).length))
  anchoredFoldsAux rows avail minTrain minTest ts 0

/-- The Python tail slice `l[-W:]` (folds.py line 133): the last `W`
entries — except that `-0` is `0`, so `W = 0` slices the WHOLE list. -/
def sliceLast {α : Type} (W : Nat) (l : List α) : List α :=
  if W = 0 then l else l.drop (l.length - W)

/-- Loop body of `create_rolling_folds`: for each candidate, take the most
recent `trainWindow` prior seasons (`prior_seasons[-train_window:]`). -/
def rollingFoldsAux (rows : List SRow) (avail : List Nat) (trainWindow minTest : Nat) :
    List Nat → Nat → List Fold
  | [], _ => []
  | t :: ts, fid =>
    let priorSeasons := avail.filter (fun s => decide (s < t))
    if priorSeasons.length < trainWindow then
      rollingFoldsAux rows avail trainWindow minTest ts fid
    else
      let trainSeasons := sliceLast trainWindow priorSeasons
      let trainDf := rows.filter (fun r => trainSeasons.contains r.season)
      let testDf := rows.filter (fun r => decide (r.season = t))
      if testDf.length < minTest then
        rollingFoldsAux rows avail trainWindow minTest ts fid
      else
        ⟨fid + 1, t, trainDf, testDf⟩ :: rollingFoldsAux rows avail trainWindow minTest ts (fid + 1)

/-- `create_rolling_folds`: train on a fixed trailing window of seasons. -/
def createRollingFolds (rows : List SRow) (testSeasons : Option (List Nat))
    (trainWindow minTest : Nat) : List Fold :=
  let avail := availableSeasons rows
  let ts :=
    match testSeasons with
    | some l => l
    | none => avail.filter (fun s => decide (trainWindow ≤ (avail.filter (fun p => decide (p < s))).length))
  rollingFoldsAux rows avail trainWindow minTest ts 0

/-- The fold stage of `EvaluationHarness.run_evaluation` (lines 162–177):
dispatch on the fold type, then `raise ValueError("No valid folds created!")`
when the produced list is empty. -/
def harnessFoldStage (rows : List SRow) (testSeasons : Option (List Nat))
    (foldType : String) (trainWindow : Nat) (cfg : Config) : Except String (List Fold) :=
  let folds :=
    if foldType = "rolling" then
      createRollingFolds rows testSeasons trainWindow cfg.minTestMatches
    else
      createAnchoredFolds rows testSeasons cfg.minTrainSeasons cfg.minTestMatches
  if folds.isEmpty then Except.error "No valid folds created!" else Except.ok folds

/-! ## Odds orientation gate (`odds_gate.py`) -/

/-- A row of a frame passed to the gate: the two closing-odds values and the
`home_win` outcome (each `none` when that cell is `NaN`), plus an opaque
payload standing for all other columns.  The gate never touches `other`. -/
structure ORow where
  homeOdds : Option ℚ
  awayOdds : Option ℚ
  homeWin : Option Bool
  other : Nat
deriving DecidableEq, Repr

/-- A frame passed to the gate: presence flags for the three referenced
columns, plus the rows. -/
structure OFrame where
  hasHomeOdds : Bool
  hasAwayOdds : Bool
  hasOutcome : Bool
  rows : List ORow
deriving DecidableEq, Repr

/-- The result dict of `_compute_market_slope`, by shape:
`err` is the `{"error": ...}` dict (missing columns / too few rows),
`fitFailed` is the `{"n", "brier", "slope": None, "error"}` dict produced
when `LogisticRegression.fit` raises, and `ok` is the full result. -/
inductive MarketResult where
  | err (msg : String)
  | fitFailed (n : Nat) (brier : ℚ) (msg : String)
  | ok (n : Nat) (brier slope intercept correlation : ℚ)
deriving DecidableEq, Repr

/-- Oracle parameters for the float procedures with no exact semantics.
`fitSlope` is `LogisticRegression(...).fit(log_odds, y)` returning
`(coef, intercept)` on the de-vigged probability / outcome pairs, `none`
when the fit raises; `corrFn` is `np.corrcoef(p, y)[0, 1]`;
`aucFn` is `roc_auc_score`; `calFn` is `sklearn.calibration.calibration_curve`
returning `(prob_true, prob_pred)` or the raised message;
`stdFn` is `np.std`. -/
structure Oracles where
  fitSlope : List (ℚ × ℚ) → Option (ℚ × ℚ)
  corrFn : List (ℚ × ℚ) → ℚ
  aucFn : List (ℚ × ℚ) → ℚ
  calFn : List (ℚ × ℚ) → Nat → Except String (List ℚ × List ℚ)
  stdFn : List ℚ → ℚ

/-- Two-argument max, written out so that it evaluates by kernel
reduction. -/
def maxQ (a b : ℚ) : ℚ := if a ≤ b then b else a

/-- Two-argument min, written out so that it evaluates by kernel
reduction. -/
def minQ (a b : ℚ) : ℚ := if a ≤ b then a else b

/-- `np.clip(p, eps, 1 - eps)` with `eps = 1e-6`. -/
def clipProb (q : ℚ) : ℚ := minQ (maxQ q (mkRat 1 1000000)) (1 - mkRat 1 1000000)

/-- The validity mask of `_compute_market_slope`: both odds cells are
non-null and `> 1.0`. -/
def validOddsRow (r : ORow) : Bool :=
  match r.homeOdds, r.awayOdds with
  | some h, some a => decide ((1 : ℚ) < h) && decide ((1 : ℚ) < a)
  | _, _ => false

/-- The clipped de-vigged home probability
`clip((1/h) / (1/h + 1/a))` of a valid row. -/
def devigHomeProb (r : ORow) : ℚ :=
  match r.homeOdds, r.awayOdds with
  | some h, some a => clipProb ((1 / h) / (1 / h + 1 / a))
  | _, _ => 0

/-- `d[outcome_col].values.astype(int)` on one cell: `NaN` cast to a 64-bit
integer yields numpy's sentinel value rather than raising. -/
def outcomeInt (o : Option Bool) : ℚ :=
  match o with
  | some true => 1
  | some false => 0
  | none => -(2 ^ 63)

/-- The `(p_market, y)` pairs of the valid rows. -/
def marketPoints (rows : List ORow) : List (ℚ × ℚ) :=
  (rows.filter validOddsRow).map (fun r => (devigHomeProb r, outcomeInt r.homeWin))

/-- Mean of a list of rationals (`np.mean`); callers guard non-emptiness. -/
def meanQ (l : List ℚ) : ℚ := l.sum / l.length

/-- The Brier score `np.mean((p_market - y) ** 2)` of the valid rows. -/
def marketBrier (pts : List (ℚ × ℚ)) : ℚ :=
  meanQ (pts.map (fun pr => (pr.1 - pr.2) ^ 2))

/-- `len(np.unique(y)) > 1` for the outcome values of the valid rows. -/
def multiClass (pts : List (ℚ × ℚ)) : Bool :=
  decide (1 < (pts.map Prod.snd).dedup.length)

/-- `_compute_market_slope`: check the three columns, filter to valid odds
rows, reject fewer than 20 (a hard-coded constant — the function takes no
config), de-vig, then compute Brier, correlation and the logistic slope. -/
def computeMarketSlope (or : Oracles) (df : OFrame) : MarketResult :=
  if df.hasHomeOdds && df.hasAwayOdds && df.hasOutcome then
    let pts := marketPoints df.rows
    if pts.length < 20 then .err "too few valid rows"
    else
      let brier := marketBrier pts
      let corr := if multiClass pts then or.corrFn pts else 0
      match or.fitSlope pts with
      | none => .fitFailed pts.length brier "fit exception"
      | some (sl, ic) => .ok pts.length brier sl ic corr
  else .err "missing columns"

/-- `is_healthy` inside `enforce_odds_orientation`:
`"error" not in m and m.get("slope") is not None and m["slope"] > config.odds_min_healthy_slope`. -/
def isHealthy (cfg : Config) : MarketResult → Bool
  | .ok _ _ sl _ _ => decide (cfg.oddsMinHealthySlope < sl)
  | _ => false

/-- `m.get("slope", -999)` as read in the both-healthy branch (that branch is
only reached on `ok` results, where the slope key is a number). -/
def slopeOrDefault : MarketResult → ℚ
  | .ok _ _ sl _ _ => sl
  | _ => -999

/-- Swapping the two odds cells of one row
(`df_swapped[[h, a]] = df_swapped[[a, h]].values`). -/
def swapRow (r : ORow) : ORow :=
  { r with homeOdds := r.awayOdds, awayOdds := r.homeOdds }

/-- Swapping the two odds columns of a frame; all other columns and the
column-presence flags are untouched. -/
def swapOdds (df : OFrame) : OFrame :=
  { df with rows := df.rows.map swapRow }

/-- The report dict built by `enforce_odds_orientation`; optional fields are
absent keys. -/
structure OReport where
  chosen : String
  action : String
  errMsg : Option String := none
  asIs : Option MarketResult := none
  swapped : Option MarketResult := none
  asIsHealthy : Option Bool := none
  swappedHealthy : Option Bool := none
deriving DecidableEq, Repr

/-- `enforce_odds_orientation`: missing columns short-circuit to an error
report; otherwise score both orientations, judge health, and walk the
decision table.  `none` models the `ValueError` raised on an ambiguous
orientation under `odds_fail_on_ambiguous`. -/
def enforceOddsOrientation (or : Oracles) (df : OFrame) (cfg : Config) :
    Option (OFrame × OReport) :=
  if !(df.hasHomeOdds && df.hasAwayOdds && df.hasOutcome) then
    some (df, { chosen := "error", action := "none", errMsg := some "missing columns" })
  else
    let mAsIs := computeMarketSlope or df
    let dfSwapped := swapOdds df
    let mSwapped := computeMarketSlope or dfSwapped
    let asH := isHealthy cfg mAsIs
    let swH := isHealthy cfg mSwapped
    let base : OReport :=
      { chosen := "", action := "", asIs := some mAsIs, swapped := some mSwapped,
        asIsHealthy := some asH, swappedHealthy := some swH }
    if asH && !swH then
      some (df, { base with chosen := "as_is", action := "none" })
    else if swH && !asH then
      if cfg.oddsAutoFix then
        some (dfSwapped, { base with chosen := "swapped", action := "auto_swapped" })
      else
        some (df, { base with chosen := "swapped", action := "manual_fix_needed" })
    else if asH && swH then
      if slopeOrDefault mAsIs < slopeOrDefault mSwapped then
        if cfg.oddsAutoFix then
          some (dfSwapped, { base with chosen := "swapped", action := "auto_swapped" })
        else
          some (df, { base with chosen := "swapped", action := "manual_fix_needed" })
      else
        some (df, { base with chosen := "as_is", action := "none" })
    else
      if cfg.oddsFailOnAmbiguous then none
      else some (df, { base with chosen := "unknown", action := "investigation_needed" })

/-! ## Metrics library (`metrics.py`) -/

/-- A row of a predictions table: predicted probability, binary outcome and
the two closing-odds values; each cell may be `NaN`. -/
structure MRow where
  prob : Option ℚ
  outcome : Option Bool
  homeOdds : Option ℚ
  awayOdds : Option ℚ
deriving DecidableEq, Repr

/-- A predictions table: presence flags for the four referenced columns,
plus the rows. -/
structure MFrame where
  hasProb : Bool
  hasOutcome : Bool
  hasHomeOdds : Bool
  hasAwayOdds : Bool
  rows : List MRow
deriving DecidableEq, Repr

/-- The result dict of one metric function: either the `{"error": ...}` dict
or the metric's own payload. -/
inductive MRes (α : Type) where
  | err (msg : String)
  | ok (val : α)
deriving DecidableEq, Repr

/-- `devig_odds`: `(None, None)` on null input, odds `≤ 1.0`, or a
non-positive raw total; otherwise the normalized fair pair. -/
def devigOdds (h a : Option ℚ) : Option (ℚ × ℚ) :=
  match h, a with
  | some ho, some ao =>
    if ho ≤ 1 ∨ ao ≤ 1 then none
    else
      let ph := 1 / ho
      let pa := 1 / ao
      let total := ph + pa
      if total ≤ 0 then none else some (ph / total, pa / total)
  | _, _ => none

/-- `0.0 / 1.0` for a binary outcome cast to float. -/
def boolQ (b : Bool) : ℚ := if b then 1 else 0

/-- `df.dropna(subset=[prob_col, outcome_col])` projected to the two used
columns; pandas raises a `KeyError` when a subset column is absent. -/
def dropnaProbOutcome (df : MFrame) : Except String (List (ℚ × Bool)) :=
  if df.hasProb && df.hasOutcome then
    Except.ok (df.rows.filterMap (fun r =>
      match r.prob, r.outcome with
      | some p, some y => some (p, y)
      | _, _ => none))
  else Except.error "KeyError"

/-- Payload of `compute_brier`. -/
structure BrierOk where
  n : Nat
  brier : ℚ
  brierSkill : ℚ
  baseRate : ℚ
deriving DecidableEq, Repr

/-- `compute_brier`: drop null rows, error dict on empty, otherwise the mean
squared error plus the skill score against the base rate (0.0 when the
climatological Brier is not positive). -/
def computeBrier (df : MFrame) : Except String (MRes BrierOk) :=
  match dropnaProbOutcome df with
  | Except.error e => Except.error e
  | Except.ok d =>
    if d.isEmpty then Except.ok (.err "no data")
    else
      let brier := meanQ (d.map (fun py => (py.1 - boolQ py.2) ^ 2))
      let baseRate := meanQ (d.map (fun py => boolQ py.2))
      let brierClim := baseRate * (1 - baseRate)
      let skill := if 0 < brierClim then 1 - brier / brierClim else 0
      Except.ok (.ok ⟨d.length, brier, skill, baseRate⟩)

/-- Payload of `compute_auc`. -/
structure AucOk where
  n : Nat
  auc : ℚ
deriving DecidableEq, Repr

/-- `compute_auc`: error dict on empty data or single-class outcomes,
otherwise `roc_auc_score`. -/
def computeAuc (or : Oracles) (df : MFrame) : Except String (MRes AucOk) :=
  match dropnaProbOutcome df with
  | Except.error e => Except.error e
  | Except.ok d =>
    if d.isEmpty then Except.ok (.err "no data")
    else if (d.map Prod.snd).dedup.length < 2 then Except.ok (.err "single class in outcomes")
    else Except.ok (.ok ⟨d.length, or.aucFn (d.map (fun py => (py.1, boolQ py.2)))⟩)

/-- Payload of `compute_accuracy`. -/
structure AccuracyOk where
  n : Nat
  accuracy : ℚ
deriving DecidableEq, Repr

/-- `compute_accuracy`: accuracy of thresholding the probabilities at 0.5. -/
def computeAccuracy (df : MFrame) (threshold : ℚ := mkRat 1 2) :
    Except String (MRes AccuracyOk) :=
  match dropnaProbOutcome df with
  | Except.error e => Except.error e
  | Except.ok d =>
    if d.isEmpty then Except.ok (.err "no data")
    else
      let acc := meanQ (d.map (fun py => if decide (threshold < py.1) = py.2 then 1 else 0))
      Except.ok (.ok ⟨d.length, acc⟩)

/-- Payload of `compute_clv`. -/
structure ClvOk where
  n : Nat
  meanClv : ℚ
  medianClv : ℚ
  stdClv : ℚ
  positiveRate : ℚ
deriving DecidableEq, Repr

/-- `np.median`: the middle of the sorted values, or the mean of the two
middles. -/
def medianQ (l : List ℚ) : ℚ :=
  let s := l.insertionSort (· ≤ ·)
  if l.length % 2 = 1 then s.getD (l.length / 2) 0
  else (s.getD (l.length / 2 - 1) 0 + s.getD (l.length / 2) 0) / 2

/-- The per-row CLV loop of `compute_clv`: drop rows with a null
probability or odds cell, de-vig (skipping rows `devig_odds` rejects), and
take model probability minus fair home probability. -/
def clvValues (df : MFrame) : List ℚ :=
  (df.rows.filterMap (fun r =>
    match r.prob, r.homeOdds, r.awayOdds with
    | some p, some h, some a => some (p, h, a)
    | _, _, _ => none)).filterMap
      (fun t => (devigOdds (some t.2.1) (some t.2.2)).map (fun pr => t.1 - pr.1))

/-- `compute_clv`: error dict when the odds columns are absent (checked
before the dropna, which itself raises when the probability column is
absent); then model minus de-vigged market probability per row with valid
odds, with an error dict when no row survives. -/
def computeClv (or : Oracles) (df : MFrame) : Except String (MRes ClvOk) :=
  if !(df.hasHomeOdds && df.hasAwayOdds) then Except.ok (.err "odds columns not found")
  else if !df.hasProb then Except.error "KeyError"
  else
    let clvs := clvValues df
    if clvs.isEmpty then Except.ok (.err "no valid odds rows")
    else
      Except.ok (.ok ⟨clvs.length, meanQ clvs, medianQ clvs, or.stdFn clvs,
        meanQ (clvs.map (fun c => if 0 < c then 1 else 0))⟩)

/-- Payload of `compute_calibration`. -/
structure CalibrationOk where
  predicted : List ℚ
  actual : List ℚ
  nBins : Nat
deriving DecidableEq, Repr

/-- `compute_calibration`: the `try` block turns any exception from
`calibration_curve` into an error dict. -/
def computeCalibration (or : Oracles) (df : MFrame) (nBins : Nat := 10) :
    Except String (MRes CalibrationOk) :=
  match dropnaProbOutcome df with
  | Except.error e => Except.error e
  | Except.ok d =>
    if d.isEmpty then Except.ok (.err "no data")
    else
      match or.calFn (d.map (fun py => (py.1, boolQ py.2))) nBins with
      | .ok av => Except.ok (.ok ⟨av.2, av.1, av.2.length⟩)
      | .error e => Except.ok (.err e)

/-- Payload of `compute_market_baseline`; the slope and intercept keys stay
`None` when the logistic fit raises (the exception is swallowed with `pass`,
so no error key is added). -/
structure MarketBaselineOk where
  n : Nat
  brier : ℚ
  slope : Option ℚ
  intercept : Option ℚ
  correlation : ℚ
  homeWinRate : ℚ
deriving DecidableEq, Repr

/-- View of a predictions row through the odds-gate column triple. -/
def MRow.toORow (r : MRow) : ORow := ⟨r.homeOdds, r.awayOdds, r.outcome, 0⟩

/-- `compute_market_baseline`: same filtering, de-vigging, Brier,
correlation and fit as `_compute_market_slope`, but a fit exception leaves
`slope`/`intercept` as `None` instead of adding an error key, and the home
win base rate is included.  This function never raises. -/
def computeMarketBaseline (or : Oracles) (df : MFrame) : MRes MarketBaselineOk :=
  if !(df.hasHomeOdds && df.hasAwayOdds && df.hasOutcome) then .err "missing columns"
  else
    let pts := marketPoints (df.rows.map MRow.toORow)
    if pts.length < 20 then .err "too few valid rows"
    else
      let brier := marketBrier pts
      let corr := if multiClass pts then or.corrFn pts else 0
      let rate := meanQ (pts.map Prod.snd)
      match or.fitSlope pts with
      | some slic => .ok ⟨pts.length, brier, some slic.1, some slic.2, corr, rate⟩
      | none => .ok ⟨pts.length, brier, none, none, corr, rate⟩

/-! ## Date ordering helpers: `sort_values("date")` with `NaT` sorted last
(ascending) as in pandas, and `ascending=False` with `NaT` last. -/

/-- "Comes no later than" for ascending date order, `NaT` last. -/
def dateLeAsc (a b : Option Int) : Bool :=
  match a, b with
  | some x, some y => decide (x ≤ y)
  | some _, none => true
  | none, some _ => false
  | none, none => true

/-- "Comes no later than" for descending date order, `NaT` last. -/
def dateLeDesc (a b : Option Int) : Bool :=
  match a, b with
  | some x, some y => decide (y ≤ x)
  | some _, none => true
  | none, some _ => false
  | none, none => true

/-- `sort_values(date_col)` (a deterministic sort standing in for pandas'
deterministic-but-unstable default). -/
def sortByDateAsc {α : Type} (dateOf : α → Option Int) (l : List α) : List α :=
  l.insertionSort (fun a b => dateLeAsc (dateOf a) (dateOf b) = true)

/-- `sort_values(date_col, ascending=False)`. -/
def sortByDateDesc {α : Type} (dateOf : α → Option Int) (l : List α) : List α :=
  l.insertionSort (fun a b => dateLeDesc (dateOf a) (dateOf b) = true)

/-! ## Harness data preparation (`harness.py`) and loader preparation
(`loader.py`) -/

/-- A match row as seen by `_prepare_data` / `_validate_and_prepare`:
`match_id` and `date` may be null, scores are integers, `home_win` and
`season` are the cell values carried when those columns are present. -/
structure HRow where
  matchId : Option String
  date : Option Int
  homeScore : Int
  awayScore : Int
  homeWin : Option Bool
  season : Option Int
deriving DecidableEq, Repr

/-- The harness input frame: whether `home_win` / `season` columns are
already present, plus the rows. -/
structure HFrame where
  hasHomeWin : Bool
  hasSeason : Bool
  rows : List HRow
deriving DecidableEq, Repr

/-- Lines 84–95 of `EvaluationHarness._prepare_data`: parse dates (already
parsed in this embedding), drop rows with null `match_id` or `date`, sort by
date, then add `home_win` and `season` ONLY IF the column is absent.
`yearOf` abstracts `Timestamp.dt.year`. -/
def prepareData (yearOf : Int → Int) (df : HFrame) : HFrame :=
  let rows1 := df.rows.filter (fun r => r.matchId.isSome && r.date.isSome)
  let rows2 := sortByDateAsc HRow.date rows1
  let rows3 :=
    if df.hasHomeWin then rows2
    else rows2.map (fun r => { r with homeWin := some (decide (r.awayScore < r.homeScore)) })
  let rows4 :=
    if df.hasSeason then rows3
    else rows3.map (fun r => { r with season := r.date.map yearOf })
  ⟨true, true, rows4⟩

/-- `DataLoader._validate_and_prepare` (lines 136–169): fatal error when a
required column is missing (collapsed to one flag); otherwise parse dates,
drop null `match_id`/`date`, sort, and UNCONDITIONALLY overwrite both
`home_win := home_score > away_score` and `season := date.year`. -/
def loaderValidateAndPrepare (yearOf : Int → Int) (hasRequiredCols : Bool)
    (rows : List HRow) : Except String (List HRow) :=
  if !hasRequiredCols then Except.error "Data missing required columns"
  else
    let rows1 := rows.filter (fun r => r.matchId.isSome && r.date.isSome)
    let rows2 := sortByDateAsc HRow.date rows1
    Except.ok (rows2.map (fun r =>
      { r with homeWin := some (decide (r.awayScore < r.homeScore)),
               season := r.date.map yearOf }))

/-! ## Feature engineer (`engineer.py`) -/

/-- A historical match as consumed by `FeatureEngineer` (the required
columns checked by `build_feature_matrix` plus the scores used by the team
index). -/
structure GMatch where
  matchId : String
  date : Option Int
  homeTeam : String
  awayTeam : String
  homeScore : Int
  awayScore : Int
deriving DecidableEq, Repr

/-- A row of `self.team_games[team]`: the underlying match plus the
team-centric columns added by `_build_team_index`. -/
structure TGRow where
  game : GMatch
  isHome : Bool
  pointsFor : Int
  pointsAgainst : Int
  margin : Int
  win : Bool
deriving DecidableEq, Repr

/-- `self.data` after `__init__`: the historical matches sorted ascending by
date. -/
def engineData (hist : List GMatch) : List GMatch :=
  sortByDateAsc GMatch.date hist

/-- `_build_team_index` for one team: this team's games, annotated from its
own perspective, sorted by date. -/
def buildTeamGames (data : List GMatch) (team : String) : List TGRow :=
  sortByDateAsc (fun r => r.game.date)
    ((data.filter (fun m => m.homeTeam == team || m.awayTeam == team)).map (fun m =>
      let ih := m.homeTeam == team
      let pf := if ih then m.homeScore else m.awayScore
      let pa := if ih then m.awayScore else m.homeScore
      ⟨m, ih, pf, pa, pf - pa, decide (0 < pf - pa)⟩))

/-- Whether a team got an entry in `self.team_games` (it appears in the
data). -/
def teamAppears (data : List GMatch) (team : String) : Bool :=
  data.any (fun m => m.homeTeam == team || m.awayTeam == team)

/-- `_get_team_history`: empty for an unknown team (without touching the
validator), otherwise the PIT-filtered team games, most recent first. -/
def getTeamHistory (data : List GMatch) (st : PITState) (team : String)
    (before : Option Int) : PITState × List TGRow :=
  if teamAppears data team then
    let res := pitValidate (fun r => r.game.date) true st
      ("history_" ++ team.take 10) (buildTeamGames data team) before
    (res.1, sortByDateDesc (fun r => r.game.date) res.2)
  else (st, [])

/-- A feature value: a string cell, a number, or Python `None`. -/
inductive FVal where
  | str (s : String)
  | num (q : ℚ)
  | null
deriving DecidableEq, Repr

/-- `Option ℚ` as a feature value. -/
def optNum (o : Option ℚ) : FVal :=
  match o with
  | some q => .num q
  | none => .null

/-- `Option Int` as a feature value. -/
def optInt (o : Option Int) : FVal :=
  match o with
  | some i => .num i
  | none => .null

/-- `_compute_rolling_stats`: games played always; the four averages only
when at least `min_games_for_rolling` recent games exist. -/
def rollingStats (cfg : Config) (history : List TGRow) (nGames : Nat) (pfx : String) :
    List (String × FVal) :=
  if history.isEmpty then
    [(pfx ++ "_games", .num 0), (pfx ++ "_pf", .null), (pfx ++ "_pa", .null),
     (pfx ++ "_margin", .null), (pfx ++ "_win_rate", .null)]
  else
    let recent := history.take nGames
    if recent.length < cfg.minGamesForRolling then
      [(pfx ++ "_games", .num recent.length), (pfx ++ "_pf", .null), (pfx ++ "_pa", .null),
       (pfx ++ "_margin", .null), (pfx ++ "_win_rate", .null)]
    else
      [(pfx ++ "_games", .num recent.length),
       (pfx ++ "_pf", .num (meanQ (recent.map (fun r => (r.pointsFor : ℚ))))),
       (pfx ++ "_pa", .num (meanQ (recent.map (fun r => (r.pointsAgainst : ℚ))))),
       (pfx ++ "_margin", .num (meanQ (recent.map (fun r => (r.margin : ℚ))))),
       (pfx ++ "_win_rate", .num (meanQ (recent.map (fun r => boolQ r.win))))]

/-- `features[key]` lookup in the accumulated dict. -/
def statLookup (l : List (String × FVal)) (k : String) : FVal :=
  ((l.find? (fun p => p.1 == k)).map Prod.snd).getD .null

/-- The home-minus-away differential loop of `compute_features`: one
`diff_{w}_{stat}` entry per statistic whose two sides are both non-null. -/
def diffFeatures (w : Nat) (hs aws : List (String × FVal)) : List (String × FVal) :=
  ["pf", "pa", "margin", "win_rate"].filterMap (fun stat =>
    match statLookup hs ("home_" ++ toString w ++ "_" ++ stat),
          statLookup aws ("away_" ++ toString w ++ "_" ++ stat) with
    | .num x, .num y => some ("diff_" ++ toString w ++ "_" ++ stat, FVal.num (x - y))
    | _, _ => none)

/-- `calc_pythag` inside `_compute_pythagorean`; `rpow` abstracts the real
power `x ** exponent`. -/
def calcPythag (rpow : ℚ → ℚ → ℚ) (cfg : Config) (history : List TGRow) (window : Nat) :
    Option ℚ :=
  if history.isEmpty || history.length < cfg.minGamesForRolling then none
  else
    let recent := history.take window
    let pf : ℚ := ((recent.map TGRow.pointsFor).sum : Int)
    let pa : ℚ := ((recent.map TGRow.pointsAgainst).sum : Int)
    if pf + pa ≤ 0 then none
    else
      let e := cfg.pythagoreanExponent
      some (rpow pf e / (rpow pf e + rpow pa e))

/-- `_compute_pythagorean` (called with its default `window=10`). -/
def computePythagorean (rpow : ℚ → ℚ → ℚ) (cfg : Config) (hh ah : List TGRow) :
    List (String × FVal) :=
  let hp := calcPythag rpow cfg hh 10
  let ap := calcPythag rpow cfg ah 10
  [("home_pythag", optNum hp), ("away_pythag", optNum ap),
   ("pythag_diff", match hp, ap with
     | some x, some y => .num (x - y)
     | _, _ => .null)]

/-- `_compute_h2h`: all meetings of exactly these two teams, PIT-filtered,
capped at `window` most recent, scored from the home side's perspective. -/
def computeH2h (data : List GMatch) (st : PITState) (home away : String)
    (before : Option Int) (window : Nat) : PITState × List (String × FVal) :=
  let pairsDf := data.filter (fun m =>
    (m.homeTeam == home && m.awayTeam == away) || (m.homeTeam == away && m.awayTeam == home))
  let res := pitValidate GMatch.date true st "h2h" pairsDf before
  let safe := res.2
  if safe.isEmpty then
    (res.1, [("h2h_games", .num 0), ("h2h_home_win_rate", .null), ("h2h_margin", .null)])
  else
    let recent := (sortByDateDesc GMatch.date safe).take window
    let homeWins := (recent.filter (fun m =>
      if m.homeTeam == home then decide (m.awayScore < m.homeScore)
      else decide (m.homeScore < m.awayScore))).length
    let totalMargin := (recent.map (fun m =>
      if m.homeTeam == home then m.homeScore - m.awayScore
      else m.awayScore - m.homeScore)).sum
    (res.1, [("h2h_games", .num recent.length),
             ("h2h_home_win_rate", .num ((homeWins : ℚ) / (recent.length : ℚ))),
             ("h2h_margin", .num ((totalMargin : ℚ) / (recent.length : ℚ)))])

/-- `days_since_last` inside `_compute_rest_days`. -/
def daysSinceLast (history : List TGRow) (date : Option Int) : Option Int :=
  match history with
  | [] => none
  | h :: _ =>
    match date, h.game.date with
    | some d, some g => some (max 0 (d - g))
    | _, _ => none

/-- `_compute_rest_days`. -/
def computeRestDays (hh ah : List TGRow) (matchDate : Option Int) : List (String × FVal) :=
  let hr := daysSinceLast hh matchDate
  let ar := daysSinceLast ah matchDate
  [("home_rest", optInt hr), ("away_rest", optInt ar),
   ("rest_diff", match hr, ar with
     | some x, some y => .num ((x - y : Int) : ℚ)
     | _, _ => .null)]

/-- `FeatureEngineer.compute_features` for a single match: the metadata
entries, rolling stats with differentials per configured window, the
Pythagorean block, head-to-head, and rest days, in the dict's insertion
order.  The validator state is threaded exactly as `self.pit` is mutated. -/
def computeFeatures (rpow : ℚ → ℚ → ℚ) (cfg : Config) (hist : List GMatch)
    (st : PITState) (m : GMatch) : PITState × List (String × FVal) :=
  let data := engineData hist
  let matchDate := m.date
  let r1 := getTeamHistory data st m.homeTeam matchDate
  let r2 := getTeamHistory data r1.1 m.awayTeam matchDate
  let homeHist := r1.2
  let awayHist := r2.2
  let base := [("match_id", FVal.str m.matchId), ("asof_ts", FVal.str (toString matchDate)),
               ("feature_version", FVal.str cfg.featureVersion)]
  let rolling := cfg.rollingWindows.flatMap (fun w =>
    let hs := rollingStats cfg homeHist w ("home_" ++ toString w)
    let aws := rollingStats cfg awayHist w ("away_" ++ toString w)
    hs ++ aws ++ diffFeatures w hs aws)
  let pyth := computePythagorean rpow cfg homeHist awayHist
  let r3 := computeH2h data r2.1 m.homeTeam m.awayTeam matchDate 10
  let rest := computeRestDays homeHist awayHist matchDate
  (r3.1, base ++ rolling ++ pyth ++ r3.2 ++ rest)

/-- `FeatureEngineer.build_feature_matrix`: fold `compute_features` over the
requested matches in order, threading the validator state, collecting one
feature row per match.  (The required-column check always passes here: the
`GMatch` type carries the required columns.) -/
def buildFeatureMatrix (rpow : ℚ → ℚ → ℚ) (cfg : Config) (hist : List GMatch)
    (st : PITState) : List GMatch → PITState × List (List (String × FVal))
  | [] => (st, [])
  | m :: ms =>
    let r := computeFeatures rpow cfg hist st m
    let rs := buildFeatureMatrix rpow cfg hist r.1 ms
    (rs.1, r.2 :: rs.2)

/-- The feature row of one match as a function of the historical data and
the match alone (the validator state a run happens to be in does not
influence it — proved below). -/
def computeFeaturesPure (rpow : ℚ → ℚ → ℚ) (cfg : Config) (hist : List GMatch)
    (m : GMatch) : List (String × FVal) :=
  (computeFeatures rpow cfg hist pitInit m).2

/-- Modelled from the spec's wording of the health test, for comparison with
the code: healthy iff de-vigging succeeded on at least `odds_min_rows` valid
odds rows and the fitted slope exceeds `odds_min_healthy_slope`. -/
def specHealthy (or : Oracles) (cfg : Config) (df : OFrame) : Bool :=
  let pts := marketPoints df.rows
  decide (cfg.oddsMinRows ≤ pts.length) &&
    (match or.fitSlope pts with
     | some slic => decide (cfg.oddsMinHealthySlope < slic.1)
     | none => false)

/-- A fixed choice of the numerical oracles, used to instantiate theorems at
concrete inputs (the theorems themselves hold for every choice). -/
def constOracles : Oracles :=
  ⟨fun _ => some (1, 0), fun _ => 0, fun _ => 1 / 2, fun _ _ => Except.error "calib", fun _ => 0⟩

/-! # Theorems

Helper lemmas first, then one theorem (plus witness / counterexample where
required) per claim. -/

theorem length_filter_add_length_filter_not {α : Type} (p : α → Bool) (l : List α) :
    (l.filter p).length + (l.filter (fun x => !(p x))).length = l.length := by
  induction l with
  | nil => simp
  | cons a l ih =>
    by_cases h : p a <;> simp [List.filter_cons, h] <;> omega

/-- Claim C1: for every frame carrying the date column and every cutoff
instant, `PITValidator.validate` returns exactly the rows whose date is
strictly earlier than the cutoff (rows with unparsable dates remain, since
the `>=` comparison treats them as not-future), and the violation entry it
records carries exactly the number of excluded rows (no entry when nothing
was excluded); the call counter is incremented. -/
theorem pit_validate_exact (st : PITState) (fn : String) (fr : PFrame) (cutoff : Int)
    (h : fr.hasDateCol = true) :
    (pitValidate PRow.date fr.hasDateCol st fn fr.rows (some cutoff)).2
      = fr.rows.filter (fun r =>
          match r.date with
          | some d => decide (d < cutoff)
          | none => true)
    ∧ (pitValidate PRow.date fr.hasDateCol st fn fr.rows (some cutoff)).1
      = ⟨st.violations ++
          (if fr.rows.length - ((pitValidate PRow.date fr.hasDateCol st fn fr.rows (some cutoff)).2).length = 0
           then []
           else [⟨fn, toString (some cutoff : Option Int),
                  fr.rows.length - ((pitValidate PRow.date fr.hasDateCol st fn fr.rows (some cutoff)).2).length⟩]),
         st.callCount + 1⟩ := by
  have hfilter : ∀ l : List PRow,
      l.filter (fun r => !(isFutureRow PRow.date (some cutoff) r))
        = l.filter (fun r =>
            match r.date with
            | some d => decide (d < cutoff)
            | none => true) := by
    intro l
    apply List.filter_congr
    intro r _
    cases hd : r.date with
    | none => simp [isFutureRow, hd]
    | some d =>
      simp only [isFutureRow, hd]
      rw [← decide_not, decide_eq_decide]
      omega
  have hcount : ∀ l : List PRow,
      (l.filter (isFutureRow PRow.date (some cutoff))).length
        = l.length - (l.filter (fun r => !(isFutureRow PRow.date (some cutoff) r))).length := by
    intro l
    have := length_filter_add_length_filter_not (isFutureRow PRow.date (some cutoff)) l
    omega
  rw [h]
  by_cases he : fr.rows.isEmpty
  · have : fr.rows = [] := List.isEmpty_iff.mp he
    simp [pitValidate, this]
  · simp only [pitValidate, he, Bool.not_true, if_neg, Bool.false_eq_true,
      not_false_eq_true, if_false, if_true]
    constructor
    · exact hfilter fr.rows
    · rw [hcount fr.rows] at *
      by_cases hz : fr.rows.length - (fr.rows.filter (fun r => !(isFutureRow PRow.date (some cutoff) r))).length = 0
      · simp [hz]
      · simp [hz]
        omega

/-- Witness for C1 at a concrete frame: three rows, one future, one past,
one unparsable; the past and unparsable rows are kept and one blocked row is
recorded. -/
theorem pit_validate_exact_witness :
    (⟨true, [⟨some 1, 0⟩, ⟨some 7, 1⟩, ⟨none, 2⟩]⟩ : PFrame).hasDateCol = true
    ∧ ((pitValidate PRow.date true pitInit "f" [⟨some 1, 0⟩, ⟨some 7, 1⟩, ⟨none, 2⟩] (some 3)).2
        = [⟨some 1, 0⟩, ⟨some 7, 1⟩, ⟨none, 2⟩].filter (fun r =>
            match r.date with
            | some d => decide (d < 3)
            | none => true)) :=
  ⟨rfl, (pit_validate_exact pitInit "f" ⟨true, [⟨some 1, 0⟩, ⟨some 7, 1⟩, ⟨none, 2⟩]⟩ 3 rfl).1⟩

theorem mem_availableSeasons (rows : List SRow) (s : Nat) :
    s ∈ availableSeasons rows ↔ ∃ r ∈ rows, r.season = s := by
  simp [availableSeasons, List.mem_insertionSort]

theorem pairwise_lt_availableSeasons (rows : List SRow) :
    (availableSeasons rows).Pairwise (· < ·) := by
  have hs : (availableSeasons rows).Pairwise (· ≤ ·) :=
    List.sorted_insertionSort (· ≤ ·) ((rows.map SRow.season).dedup)
  have hn : (availableSeasons rows).Nodup :=
    (List.perm_insertionSort (· ≤ ·) ((rows.map SRow.season).dedup)).nodup_iff.mpr
      (List.nodup_dedup _)
  exact (hs.and hn).imp (fun h => lt_of_le_of_ne h.1 h.2)

/-- For a strictly ascending list, `l.drop (l.length - W)` (Python
`l[-W:]`) holds exactly the members with fewer than `W` larger members:
the `W` most recent entries. -/
theorem mem_drop_sorted (l : List Nat) (hl : l.Pairwise (· < ·)) (W s : Nat) :
    s ∈ l.drop (l.length - W) ↔
      s ∈ l ∧ (l.filter (fun x => decide (s < x))).length < W := by
  induction l with
  | nil => simp
  | cons a l ih =>
    have ha : ∀ b ∈ l, a < b := (List.pairwise_cons.mp hl).1
    have hl' := (List.pairwise_cons.mp hl).2
    by_cases hW : l.length + 1 ≤ W
    · have h0 : (a :: l).length - W = 0 := by simp; omega
      rw [h0, List.drop_zero]
      constructor
      · intro hs
        refine ⟨hs, ?_⟩
        have hlt : ((a :: l).filter (fun x => decide (s < x))).length < (a :: l).length := by
          rw [List.length_filter_lt_length_iff_exists]
          exact ⟨s, hs, by simp⟩
        simp only [List.length_cons] at hlt
        omega
      · exact fun hs => hs.1
    · have h1 : (a :: l).length - W = (l.length - W) + 1 := by simp; omega
      rw [h1, List.drop_succ_cons, ih hl']
      constructor
      · rintro ⟨hs, hc⟩
        have hsa : ¬ (s < a) := by
          have := ha s hs
          omega
        refine ⟨List.mem_cons_of_mem _ hs, ?_⟩
        rw [List.filter_cons]
        simpa [hsa] using hc
      · rintro ⟨hs, hc⟩
        rcases List.mem_cons.mp hs with rfl | hs'
        · exfalso
          have hall : l.filter (fun x => decide (s < x)) = l :=
            List.filter_eq_self.mpr (fun b hb => by simpa using ha b hb)
          simp only [List.filter_cons, lt_self_iff_false, decide_eq_true_eq, if_neg,
            not_false_eq_true] at hc
          rw [hall] at hc
          omega
        · have hsa : ¬ (s < a) := by
            have := ha s hs'
            omega
          refine ⟨hs', ?_⟩
          rw [List.filter_cons] at hc
          simpa [hsa] using hc

/-- Every fold produced by the anchored loop: its training frame is the rows
whose season is in the prior-season list, its test frame is the rows of the
test season, and both eligibility guards passed. -/
theorem anchoredFoldsAux_mem (rows : List SRow) (avail : List Nat) (m1 m2 : Nat) :
    ∀ (ts : List Nat) (fid : Nat) (f : Fold), f ∈ anchoredFoldsAux rows avail m1 m2 ts fid →
      f.train = rows.filter (fun r =>
        (avail.filter (fun s => decide (s < f.testSeason))).contains r.season)
      ∧ f.test = rows.filter (fun r => decide (r.season = f.testSeason))
      ∧ m2 ≤ f.test.length
      ∧ m1 ≤ (avail.filter (fun s => decide (s < f.testSeason))).length := by
  intro ts
  induction ts with
  | nil => intro fid f hf; simp [anchoredFoldsAux] at hf
  | cons t ts ih =>
    intro fid f hf
    simp only [anchoredFoldsAux] at hf
    split at hf
    next h1 => exact ih _ _ hf
    next h1 =>
      split at hf
      next h2 => exact ih _ _ hf
      next h2 =>
        rcases List.mem_cons.mp hf with rfl | hmem
        · exact ⟨rfl, rfl, by dsimp only; omega, by dsimp only; omega⟩
        · exact ih _ _ hmem

/-- Every fold produced by the rolling loop: its training frame is the rows
whose season is in the trailing window, its test frame is the rows of the
test season, and both guards passed. -/
theorem rollingFoldsAux_mem (rows : List SRow) (avail : List Nat) (W m : Nat) :
    ∀ (ts : List Nat) (fid : Nat) (f : Fold), f ∈ rollingFoldsAux rows avail W m ts fid →
      f.train = rows.filter (fun r =>
        (sliceLast W (avail.filter (fun s => decide (s < f.testSeason)))).contains r.season)
      ∧ f.test = rows.filter (fun r => decide (r.season = f.testSeason))
      ∧ m ≤ f.test.length
      ∧ W ≤ (avail.filter (fun s => decide (s < f.testSeason))).length := by
  intro ts
  induction ts with
  | nil => intro fid f hf; simp [rollingFoldsAux] at hf
  | cons t ts ih =>
    intro fid f hf
    simp only [rollingFoldsAux] at hf
    split at hf
    next h1 => exact ih _ _ hf
    next h1 =>
      split at hf
      next h2 => exact ih _ _ hf
      next h2 =>
        rcases List.mem_cons.mp hf with rfl | hmem
        · exact ⟨rfl, rfl, by dsimp only; omega, by dsimp only; omega⟩
        · exact ih _ _ hmem

/-- Counterexample to claim C2: with `train_window = 0`, Python's
`prior_seasons[-0:]` slices the entire prior-season list, so the produced
rolling fold trains on ALL prior seasons — season 1 occurs in its training
frame — while the claim's trailing-window reading ("the 0 most recent
distinct seasons", an empty set, i.e. fewer than 0 later seasons) holds of
no season. -/
theorem rolling_window_zero_counterexample :
    (Fold.mk 1 2 [⟨1, 0⟩] [⟨2, 0⟩]) ∈
      createRollingFolds [⟨1, 0⟩, ⟨2, 0⟩] (some [2]) 0 1
    ∧ ¬ ((∃ r ∈ (Fold.mk 1 2 [⟨1, 0⟩] [⟨2, 0⟩]).train, r.season = 1) ↔
          (1 ∈ availableSeasons [⟨1, 0⟩, ⟨2, 0⟩]
           ∧ 1 < (Fold.mk 1 2 [⟨1, 0⟩] [⟨2, 0⟩]).testSeason
           ∧ ((availableSeasons [⟨1, 0⟩, ⟨2, 0⟩]).filter
                (fun x => decide (1 < x)
                  && decide (x < (Fold.mk 1 2 [⟨1, 0⟩] [⟨2, 0⟩]).testSeason))).length < 0)) := by
  constructor
  · decide
  · decide

/-- Amended claim C2: in every produced anchored fold the training frame is
exactly the rows of the seasons strictly less than the test season; in
every produced rolling fold with window `W ≥ 1` the set of seasons
occurring in the training frame is exactly the `W` most recent distinct
seasons strictly earlier than the test season (the distinct seasons
`s < testSeason` with fewer than `W` distinct seasons between `s` and the
test season); with `W = 0` (where Python's `l[-0:]` slices the whole list)
it is ALL distinct seasons strictly earlier than the test season. -/
theorem folds_train_seasons (rows : List SRow) (tsA tsR : Option (List Nat))
    (m1 m2 W m : Nat) (hW : 1 ≤ W) :
    (∀ f ∈ createAnchoredFolds rows tsA m1 m2,
      f.train = rows.filter (fun r => decide (r.season < f.testSeason)))
    ∧ (∀ f ∈ createRollingFolds rows tsR W m, ∀ s : Nat,
        (∃ r ∈ f.train, r.season = s) ↔
          (s ∈ availableSeasons rows ∧ s < f.testSeason ∧
           ((availableSeasons rows).filter
              (fun x => decide (s < x) && decide (x < f.testSeason))).length < W))
    ∧ (∀ f ∈ createRollingFolds rows tsR 0 m, ∀ s : Nat,
        (∃ r ∈ f.train, r.season = s) ↔
          (s ∈ availableSeasons rows ∧ s < f.testSeason)) := by
  refine ⟨?_, ?_, ?_⟩
  · intro f hf
    obtain ⟨htrain, -, -, -⟩ :=
      anchoredFoldsAux_mem rows (availableSeasons rows) m1 m2 _ 0 f
        (by simpa only [createAnchoredFolds] using hf)
    rw [htrain]
    apply List.filter_congr
    intro r hr
    have hmem : r.season ∈ availableSeasons rows :=
      (mem_availableSeasons rows r.season).mpr ⟨r, hr, rfl⟩
    by_cases hlt : r.season < f.testSeason <;>
      simp [List.mem_filter, hmem, hlt]
  · intro f hf s
    obtain ⟨htrain, -, -, -⟩ :=
      rollingFoldsAux_mem rows (availableSeasons rows) W m _ 0 f
        (by simpa only [createRollingFolds] using hf)
    have hslice : sliceLast W ((availableSeasons rows).filter (fun x => decide (x < f.testSeason)))
        = ((availableSeasons rows).filter (fun x => decide (x < f.testSeason))).drop
            (((availableSeasons rows).filter (fun x => decide (x < f.testSeason))).length - W) := by
      rw [sliceLast, if_neg (by omega)]
    have hprior : ((availableSeasons rows).filter
        (fun x => decide (x < f.testSeason))).Pairwise (· < ·) :=
      (pairwise_lt_availableSeasons rows).filter _
    have hwin := mem_drop_sorted
      ((availableSeasons rows).filter (fun x => decide (x < f.testSeason))) hprior W s
    have hchar : s ∈ ((availableSeasons rows).filter (fun x => decide (x < f.testSeason))).drop
          (((availableSeasons rows).filter (fun x => decide (x < f.testSeason))).length - W) ↔
        (s ∈ availableSeasons rows ∧ s < f.testSeason ∧
         ((availableSeasons rows).filter
            (fun x => decide (s < x) && decide (x < f.testSeason))).length < W) := by
      rw [hwin, List.filter_filter]
      constructor
      · rintro ⟨hmemf, hcnt⟩
        have h1 := List.mem_filter.mp hmemf
        exact ⟨h1.1, by simpa using h1.2, hcnt⟩
      · rintro ⟨hA, hlt, hcnt⟩
        exact ⟨List.mem_filter.mpr ⟨hA, by simpa using hlt⟩, hcnt⟩
    constructor
    · rintro ⟨r, hrtrain, rfl⟩
      rw [htrain] at hrtrain
      have hr := List.mem_filter.mp hrtrain
      refine hchar.mp ?_
      rw [← hslice]
      simpa using hr.2
    · rintro hrhs
      obtain ⟨r, hr, hrs⟩ := (mem_availableSeasons rows s).mp hrhs.1
      refine ⟨r, ?_, hrs⟩
      rw [htrain]
      refine List.mem_filter.mpr ⟨hr, ?_⟩
      have hds := hchar.mpr hrhs
      rw [← hslice] at hds
      simpa [hrs] using hds
  · intro f hf s
    obtain ⟨htrain, -, -, -⟩ :=
      rollingFoldsAux_mem rows (availableSeasons rows) 0 m _ 0 f
        (by simpa only [createRollingFolds] using hf)
    have hslice0 : sliceLast 0 ((availableSeasons rows).filter (fun x => decide (x < f.testSeason)))
        = (availableSeasons rows).filter (fun x => decide (x < f.testSeason)) := by
      rw [sliceLast, if_pos rfl]
    constructor
    · rintro ⟨r, hrtrain, rfl⟩
      rw [htrain] at hrtrain
      have hr := List.mem_filter.mp hrtrain
      have hmem : r.season ∈ sliceLast 0 ((availableSeasons rows).filter
          (fun x => decide (x < f.testSeason))) := by
        simpa using hr.2
      rw [hslice0] at hmem
      have h1 := List.mem_filter.mp hmem
      exact ⟨h1.1, by simpa using h1.2⟩
    · rintro ⟨hA, hlt⟩
      obtain ⟨r, hr, hrs⟩ := (mem_availableSeasons rows s).mp hA
      refine ⟨r, ?_, hrs⟩
      rw [htrain]
      refine List.mem_filter.mpr ⟨hr, ?_⟩
      have hmem : s ∈ sliceLast 0 ((availableSeasons rows).filter
          (fun x => decide (x < f.testSeason))) := by
        rw [hslice0]
        exact List.mem_filter.mpr ⟨hA, by simpa using hlt⟩
      simpa [hrs] using hmem

/-- Witness for C2 (amended) on four one-row seasons: the anchored fold
testing season 4 trains on seasons 1–3, and the rolling fold with window 1
trains exactly on season 3. -/
theorem folds_train_seasons_witness :
    ((Fold.mk 1 4 [⟨1, 0⟩, ⟨2, 0⟩, ⟨3, 0⟩] [⟨4, 0⟩]).train
      = ([⟨1, 0⟩, ⟨2, 0⟩, ⟨3, 0⟩, ⟨4, 0⟩] : List SRow).filter
          (fun r => decide (r.season < (Fold.mk 1 4 [⟨1, 0⟩, ⟨2, 0⟩, ⟨3, 0⟩] [⟨4, 0⟩]).testSeason)))
    ∧ ((∃ r ∈ (Fold.mk 1 4 [⟨3, 0⟩] [⟨4, 0⟩]).train, r.season = 3) ↔
        (3 ∈ availableSeasons [⟨1, 0⟩, ⟨2, 0⟩, ⟨3, 0⟩, ⟨4, 0⟩]
         ∧ 3 < (Fold.mk 1 4 [⟨3, 0⟩] [⟨4, 0⟩]).testSeason
         ∧ ((availableSeasons [⟨1, 0⟩, ⟨2, 0⟩, ⟨3, 0⟩, ⟨4, 0⟩]).filter
              (fun x => decide (3 < x) && decide (x < (Fold.mk 1 4 [⟨3, 0⟩] [⟨4, 0⟩]).testSeason))).length < 1)) :=
  ⟨(folds_train_seasons [⟨1, 0⟩, ⟨2, 0⟩, ⟨3, 0⟩, ⟨4, 0⟩] (some [4]) (some [4]) 1 1 1 1
      (by decide)).1
      (Fold.mk 1 4 [⟨1, 0⟩, ⟨2, 0⟩, ⟨3, 0⟩] [⟨4, 0⟩]) (by decide),
   (folds_train_seasons [⟨1, 0⟩, ⟨2, 0⟩, ⟨3, 0⟩, ⟨4, 0⟩] (some [4]) (some [4]) 1 1 1 1
      (by decide)).2.1
      (Fold.mk 1 4 [⟨3, 0⟩] [⟨4, 0⟩]) (by decide) 3⟩

/-- Skipped candidates leave no trace: the anchored loop on a candidate list
equals the loop on the eligible candidates only. -/
theorem anchoredFoldsAux_filter_eligible (rows : List SRow) (avail : List Nat) (m1 m2 : Nat) :
    ∀ (ts : List Nat) (fid : Nat),
      anchoredFoldsAux rows avail m1 m2 ts fid
        = anchoredFoldsAux rows avail m1 m2
            (ts.filter (fun t =>
              decide (m1 ≤ (avail.filter (fun s => decide (s < t))).length)
              && decide (m2 ≤ (rows.filter (fun r => decide (r.season = t))).length))) fid := by
  intro ts
  induction ts with
  | nil => intro fid; rfl
  | cons t ts ih =>
    intro fid
    rw [List.filter_cons]
    by_cases h1 : (avail.filter (fun s => decide (s < t))).length < m1
    · have hd1 : decide (m1 ≤ (avail.filter (fun s => decide (s < t))).length) = false :=
        decide_eq_false (by omega)
      rw [hd1, Bool.false_and, if_neg (by simp)]
      simp only [anchoredFoldsAux]
      rw [if_pos h1]
      exact ih fid
    · by_cases h2 : (rows.filter (fun r => decide (r.season = t))).length < m2
      · have hd2 : decide (m2 ≤ (rows.filter (fun r => decide (r.season = t))).length) = false :=
          decide_eq_false (by omega)
        rw [hd2, Bool.and_false, if_neg (by simp)]
        simp only [anchoredFoldsAux]
        rw [if_neg h1, if_pos h2]
        exact ih fid
      · have hd1 : decide (m1 ≤ (avail.filter (fun s => decide (s < t))).length) = true :=
          decide_eq_true (by omega)
        have hd2 : decide (m2 ≤ (rows.filter (fun r => decide (r.season = t))).length) = true :=
          decide_eq_true (by omega)
        rw [hd1, hd2, Bool.and_self, if_pos rfl]
        simp only [anchoredFoldsAux]
        simp only [if_neg h1, if_neg h2]
        rw [ih]

/-- Skipped candidates leave no trace: the rolling loop on a candidate list
equals the loop on the eligible candidates only. -/
theorem rollingFoldsAux_filter_eligible (rows : List SRow) (avail : List Nat) (W m : Nat) :
    ∀ (ts : List Nat) (fid : Nat),
      rollingFoldsAux rows avail W m ts fid
        = rollingFoldsAux rows avail W m
            (ts.filter (fun t =>
              decide (W ≤ (avail.filter (fun s => decide (s < t))).length)
              && decide (m ≤ (rows.filter (fun r => decide (r.season = t))).length))) fid := by
  intro ts
  induction ts with
  | nil => intro fid; rfl
  | cons t ts ih =>
    intro fid
    rw [List.filter_cons]
    by_cases h1 : (avail.filter (fun s => decide (s < t))).length < W
    · have hd1 : decide (W ≤ (avail.filter (fun s => decide (s < t))).length) = false :=
        decide_eq_false (by omega)
      rw [hd1, Bool.false_and, if_neg (by simp)]
      simp only [rollingFoldsAux]
      rw [if_pos h1]
      exact ih fid
    · by_cases h2 : (rows.filter (fun r => decide (r.season = t))).length < m
      · have hd2 : decide (m ≤ (rows.filter (fun r => decide (r.season = t))).length) = false :=
          decide_eq_false (by omega)
        rw [hd2, Bool.and_false, if_neg (by simp)]
        simp only [rollingFoldsAux]
        rw [if_neg h1, if_pos h2]
        exact ih fid
      · have hd1 : decide (W ≤ (avail.filter (fun s => decide (s < t))).length) = true :=
          decide_eq_true (by omega)
        have hd2 : decide (m ≤ (rows.filter (fun r => decide (r.season = t))).length) = true :=
          decide_eq_true (by omega)
        rw [hd1, hd2, Bool.and_self, if_pos rfl]
        simp only [rollingFoldsAux]
        simp only [if_neg h1, if_neg h2]
        rw [ih]

/-- Claim C7: under either policy an undersized candidate test season is
dropped without an error — every produced fold meets the minimum test size,
and the output equals the output on the eligible candidates alone — and the
harness's fold stage raises exactly when zero folds survive. -/
theorem fold_drop_and_zero_folds_fatal (rows : List SRow) (tsA tsR ts : Option (List Nat))
    (lA lR : List Nat) (m1 m2 W m tw : Nat) (ft : String) (cfg : Config) :
    (∀ f ∈ createAnchoredFolds rows tsA m1 m2, m2 ≤ f.test.length)
    ∧ (∀ f ∈ createRollingFolds rows tsR W m, m ≤ f.test.length)
    ∧ createAnchoredFolds rows (some lA) m1 m2
        = createAnchoredFolds rows
            (some (lA.filter (fun t =>
              decide (m1 ≤ ((availableSeasons rows).filter (fun s => decide (s < t))).length)
              && decide (m2 ≤ (rows.filter (fun r => decide (r.season = t))).length)))) m1 m2
    ∧ createRollingFolds rows (some lR) W m
        = createRollingFolds rows
            (some (lR.filter (fun t =>
              decide (W ≤ ((availableSeasons rows).filter (fun s => decide (s < t))).length)
              && decide (m ≤ (rows.filter (fun r => decide (r.season = t))).length)))) W m
    ∧ (harnessFoldStage rows ts ft tw cfg = Except.error "No valid folds created!" ↔
        (if ft = "rolling" then createRollingFolds rows ts tw cfg.minTestMatches
         else createAnchoredFolds rows ts cfg.minTrainSeasons cfg.minTestMatches) = []) := by
  refine ⟨?_, ?_, ?_, ?_, ?_⟩
  · intro f hf
    exact (anchoredFoldsAux_mem rows (availableSeasons rows) m1 m2 _ 0 f
      (by simpa only [createAnchoredFolds] using hf)).2.2.1
  · intro f hf
    exact (rollingFoldsAux_mem rows (availableSeasons rows) W m _ 0 f
      (by simpa only [createRollingFolds] using hf)).2.2.1
  · simpa only [createAnchoredFolds] using
      anchoredFoldsAux_filter_eligible rows (availableSeasons rows) m1 m2 lA 0
  · simpa only [createRollingFolds] using
      rollingFoldsAux_filter_eligible rows (availableSeasons rows) W m lR 0
  · by_cases hft : ft = "rolling"
    · subst hft
      rcases hfolds : createRollingFolds rows ts tw cfg.minTestMatches with _ | ⟨f, fs⟩ <;>
        simp [harnessFoldStage, hfolds]
    · rcases hfolds : createAnchoredFolds rows ts cfg.minTrainSeasons cfg.minTestMatches
          with _ | ⟨f, fs⟩ <;>
        simp [harnessFoldStage, hfolds, hft]

/-- Witness for C7: season 4 has one row but the minimum is two, so it is
dropped while season 3 still yields a fold; the fold stage raises exactly on
the empty outcome. -/
theorem fold_drop_witness :
    2 ≤ (Fold.mk 1 3 [⟨1, 0⟩, ⟨2, 0⟩, ⟨2, 1⟩] [⟨3, 0⟩, ⟨3, 1⟩]).test.length
    ∧ (harnessFoldStage ([] : List SRow) none "anchored" 3 defaultConfig
        = Except.error "No valid folds created!" ↔
        (if "anchored" = "rolling" then createRollingFolds ([] : List SRow) none 3 defaultConfig.minTestMatches
         else createAnchoredFolds ([] : List SRow) none defaultConfig.minTrainSeasons defaultConfig.minTestMatches) = []) :=
  ⟨(fold_drop_and_zero_folds_fatal [⟨1, 0⟩, ⟨2, 0⟩, ⟨2, 1⟩, ⟨3, 0⟩, ⟨3, 1⟩, ⟨4, 0⟩]
      (some [3, 4]) (some [3, 4]) none [3, 4] [3, 4] 1 2 1 2 3 "anchored" defaultConfig).1
      (Fold.mk 1 3 [⟨1, 0⟩, ⟨2, 0⟩, ⟨2, 1⟩] [⟨3, 0⟩, ⟨3, 1⟩]) (by decide),
   (fold_drop_and_zero_folds_fatal ([] : List SRow) none none none [] [] 1 2 1 2 3 "anchored"
      defaultConfig).2.2.2.2⟩

/-- Claim C9: a frame missing any of the three referenced columns makes
`enforce_odds_orientation` return the input unchanged with a
`chosen = "error"`, `action = "none"` report — it never raises there, even
under `odds_fail_on_ambiguous`. -/
theorem odds_gate_missing_columns (or : Oracles) (cfg : Config) (df : OFrame)
    (h : df.hasHomeOdds = false ∨ df.hasAwayOdds = false ∨ df.hasOutcome = false) :
    enforceOddsOrientation or df cfg =
      some (df, { chosen := "error", action := "none", errMsg := some "missing columns" }) := by
  have hc : (df.hasHomeOdds && df.hasAwayOdds && df.hasOutcome) = false := by
    rcases h with h | h | h <;> simp [h]
  simp [enforceOddsOrientation, hc]

/-- Witness for C9: a frame without the outcome column, under the default
config (which sets `odds_fail_on_ambiguous`). -/
theorem odds_gate_missing_columns_witness :
    ((⟨true, true, false, [⟨some 2, some 2, some true, 0⟩]⟩ : OFrame).hasHomeOdds = false
      ∨ (⟨true, true, false, [⟨some 2, some 2, some true, 0⟩]⟩ : OFrame).hasAwayOdds = false
      ∨ (⟨true, true, false, [⟨some 2, some 2, some true, 0⟩]⟩ : OFrame).hasOutcome = false)
    ∧ enforceOddsOrientation constOracles
        ⟨true, true, false, [⟨some 2, some 2, some true, 0⟩]⟩ defaultConfig
        = some (⟨true, true, false, [⟨some 2, some 2, some true, 0⟩]⟩,
            { chosen := "error", action := "none", errMsg := some "missing columns" }) :=
  ⟨Or.inr (Or.inr rfl),
   odds_gate_missing_columns constOracles defaultConfig
     ⟨true, true, false, [⟨some 2, some 2, some true, 0⟩]⟩ (Or.inr (Or.inr rfl))⟩

theorem swapRow_swapRow (r : ORow) : swapRow (swapRow r) = r := rfl

theorem swapOdds_swapOdds (df : OFrame) : swapOdds (swapOdds df) = df := by
  cases df with
  | mk h a o rows =>
    simp only [swapOdds, List.map_map]
    congr 1
    have hid : swapRow ∘ swapRow = id := funext fun r => swapRow_swapRow r
    rw [hid, List.map_id]

/-- Claim C3: whenever the gate returns (rather than raises), running it
again on the returned frame with the same configuration returns that frame
unchanged — no further swap. -/
theorem odds_gate_idempotent (or : Oracles) (cfg : Config) (df df1 : OFrame) (rep1 : OReport)
    (h : enforceOddsOrientation or df cfg = some (df1, rep1)) :
    Option.map Prod.fst (enforceOddsOrientation or df1 cfg) = some df1 := by
  by_cases hc : (df.hasHomeOdds && df.hasAwayOdds && df.hasOutcome) = true
  case neg =>
    have hcf : (df.hasHomeOdds && df.hasAwayOdds && df.hasOutcome) = false := by
      simpa using hc
    simp only [enforceOddsOrientation, hcf, Bool.not_false, if_true, Option.some.injEq,
      Prod.mk.injEq] at h
    obtain ⟨h1, -⟩ := h
    subst h1
    simp [enforceOddsOrientation, hcf]
  case pos =>
    have hcS : ((swapOdds df).hasHomeOdds && (swapOdds df).hasAwayOdds
        && (swapOdds df).hasOutcome) = true := by
      simpa [swapOdds] using hc
    by_cases hA : isHealthy cfg (computeMarketSlope or df) = true <;>
      by_cases hS : isHealthy cfg (computeMarketSlope or (swapOdds df)) = true
    · -- both healthy: tie-break on the higher slope
      by_cases hlt : slopeOrDefault (computeMarketSlope or df)
          < slopeOrDefault (computeMarketSlope or (swapOdds df))
      · by_cases hfix : cfg.oddsAutoFix = true
        · simp only [enforceOddsOrientation, hc, Bool.not_true, Bool.and_false, Bool.false_eq_true,
            if_false, hA, hS, Bool.and_self, if_true, hlt, hfix, Option.some.injEq,
            Prod.mk.injEq] at h
          obtain ⟨h1, -⟩ := h
          subst h1
          have hnot : ¬ (slopeOrDefault (computeMarketSlope or (swapOdds df))
              < slopeOrDefault (computeMarketSlope or df)) := lt_asymm hlt
          simp [enforceOddsOrientation, hcS, hA, hS, swapOdds_swapOdds, hnot]
        · simp only [enforceOddsOrientation, hc, Bool.not_true, Bool.and_false, Bool.false_eq_true,
            if_false, hA, hS, Bool.and_self, if_true, hlt, hfix, Option.some.injEq,
            Prod.mk.injEq] at h
          obtain ⟨h1, -⟩ := h
          subst h1
          simp [enforceOddsOrientation, hc, hA, hS, hlt, hfix]
      · simp only [enforceOddsOrientation, hc, Bool.not_true, Bool.and_false, Bool.false_eq_true,
          if_false, hA, hS, Bool.and_self, if_true, hlt, Option.some.injEq,
          Prod.mk.injEq] at h
        obtain ⟨h1, -⟩ := h
        subst h1
        simp [enforceOddsOrientation, hc, hA, hS, hlt]
    · -- as-is healthy only: keep as-is
      simp only [enforceOddsOrientation, hc, Bool.not_true, Bool.and_false, Bool.false_eq_true,
        if_false, hA, hS, Bool.not_false, Bool.and_true, Bool.true_and, if_true,
        Option.some.injEq, Prod.mk.injEq] at h
      obtain ⟨h1, -⟩ := h
      subst h1
      simp [enforceOddsOrientation, hc, hA, hS]
    · -- swapped healthy only: auto-fix or report
      by_cases hfix : cfg.oddsAutoFix = true
      · simp only [enforceOddsOrientation, hc, Bool.not_true, Bool.and_false, Bool.false_eq_true,
          if_false, hA, hS, Bool.not_false, Bool.and_true, Bool.true_and, Bool.false_and,
          if_true, hfix, Option.some.injEq, Prod.mk.injEq] at h
        obtain ⟨h1, -⟩ := h
        subst h1
        simp [enforceOddsOrientation, hcS, hA, hS, swapOdds_swapOdds]
      · simp only [enforceOddsOrientation, hc, Bool.not_true, Bool.and_false, Bool.false_eq_true,
          if_false, hA, hS, Bool.not_false, Bool.and_true, Bool.true_and, Bool.false_and,
          if_true, hfix, Option.some.injEq, Prod.mk.injEq] at h
        obtain ⟨h1, -⟩ := h
        subst h1
        simp [enforceOddsOrientation, hc, hA, hS, hfix]
    · -- neither healthy: ambiguous
      by_cases hamb : cfg.oddsFailOnAmbiguous = true
      · simp [enforceOddsOrientation, hc, hA, hS, hamb] at h
      · simp only [enforceOddsOrientation, hc, Bool.not_true, Bool.and_false, Bool.false_eq_true,
          if_false, hA, hS, Bool.and_self, Bool.false_and, Bool.and_true, hamb,
          Option.some.injEq, Prod.mk.injEq] at h
        obtain ⟨h1, -⟩ := h
        subst h1
        simp [enforceOddsOrientation, hc, hA, hS, hamb]

/-- Witness for C3: on an all-columns-present empty frame neither
orientation is healthy, and with `odds_fail_on_ambiguous` off the gate
returns the frame untouched; re-running it returns the same frame. -/
theorem odds_gate_idempotent_witness :
    enforceOddsOrientation constOracles (⟨true, true, true, []⟩ : OFrame)
        { oddsFailOnAmbiguous := false }
      = some (⟨true, true, true, []⟩,
          { chosen := "unknown", action := "investigation_needed",
            asIs := some (.err "too few valid rows"),
            swapped := some (.err "too few valid rows"),
            asIsHealthy := some false, swappedHealthy := some false })
    ∧ Option.map Prod.fst (enforceOddsOrientation constOracles
        (⟨true, true, true, []⟩ : OFrame) { oddsFailOnAmbiguous := false })
      = some (⟨true, true, true, []⟩ : OFrame) :=
  ⟨rfl,
   odds_gate_idempotent constOracles { oddsFailOnAmbiguous := false }
     ⟨true, true, true, []⟩ ⟨true, true, true, []⟩
     { chosen := "unknown", action := "investigation_needed",
       asIs := some (.err "too few valid rows"),
       swapped := some (.err "too few valid rows"),
       asIsHealthy := some false, swappedHealthy := some false } rfl⟩

/-- Counterexample to claim C4: with `odds_min_rows := 5` and five valid
odds rows, the spec-side health predicate holds (five rows suffice and the
oracle slope is 1) but the code judges the orientation unhealthy, because
`_compute_market_slope` hard-codes its row threshold at 20 and never reads
`config.odds_min_rows`. -/
theorem odds_healthy_spec_counterexample :
    ¬ (isHealthy { oddsMinRows := 5 }
        (computeMarketSlope constOracles
          ⟨true, true, true, List.replicate 5 ⟨some 2, some 2, some true, 0⟩⟩)
        = specHealthy constOracles { oddsMinRows := 5 }
            ⟨true, true, true, List.replicate 5 ⟨some 2, some 2, some true, 0⟩⟩) := by
  decide

/-- Amended claim C4: the gate judges an orientation healthy iff the three
columns are present, at least 20 valid odds rows survive de-vigging (a
hard-coded constant — `config.odds_min_rows` is ignored), the logistic fit
succeeds, and the fitted slope exceeds `config.odds_min_healthy_slope`. -/
theorem odds_healthy_hardcoded_rows (or : Oracles) (cfg : Config) (df : OFrame) :
    isHealthy cfg (computeMarketSlope or df) = true ↔
      (df.hasHomeOdds = true ∧ df.hasAwayOdds = true ∧ df.hasOutcome = true
       ∧ 20 ≤ (marketPoints df.rows).length
       ∧ ∃ sl ic, or.fitSlope (marketPoints df.rows) = some (sl, ic)
           ∧ cfg.oddsMinHealthySlope < sl) := by
  by_cases hc : (df.hasHomeOdds && df.hasAwayOdds && df.hasOutcome) = true
  · obtain ⟨hh, ha, ho⟩ : df.hasHomeOdds = true ∧ df.hasAwayOdds = true ∧ df.hasOutcome = true := by
      simpa [Bool.and_eq_true, and_assoc] using hc
    by_cases hn : (marketPoints df.rows).length < 20
    · simp only [computeMarketSlope, hc, if_true, hn, isHealthy]
      constructor
      · intro hfalse; exact absurd hfalse (by simp)
      · rintro ⟨-, -, -, hge, -⟩; omega
    · rcases hf : or.fitSlope (marketPoints df.rows) with _ | ⟨sl, ic⟩
      · simp only [computeMarketSlope, hc, if_true, hn, if_false, hf, isHealthy]
        constructor
        · intro hfalse; exact absurd hfalse (by simp)
        · rintro ⟨-, -, -, -, sl, ic, hcontra, -⟩; simp at hcontra
      · simp only [computeMarketSlope, hc, if_true, hn, if_false, hf, isHealthy,
          decide_eq_true_eq]
        constructor
        · intro hsl; exact ⟨hh, ha, ho, by omega, sl, ic, rfl, hsl⟩
        · rintro ⟨-, -, -, -, sl2, ic2, heq, hsl⟩
          rw [Option.some.injEq, Prod.mk.injEq] at heq
          obtain ⟨rfl, -⟩ := heq
          exact hsl
  · have hcf : (df.hasHomeOdds && df.hasAwayOdds && df.hasOutcome) = false := by simpa using hc
    simp only [computeMarketSlope, hcf, Bool.false_eq_true, if_false, isHealthy]
    constructor
    · intro hfalse; exact absurd hfalse (by simp)
    · rintro ⟨hh, ha, ho, -⟩
      exact absurd (by simp [hh, ha, ho] : (df.hasHomeOdds && df.hasAwayOdds && df.hasOutcome) = true)
        (by simp [hcf])

/-- Counterexample to claim C5: `compute_brier` on a frame without the
probability column raises (pandas `dropna(subset=...)` raises a `KeyError`
for an absent column) instead of returning an error dict. -/
theorem metrics_missing_column_raises :
    computeBrier ⟨false, true, true, true, [⟨none, some true, some 2, some 2⟩]⟩
      = Except.error "KeyError" := rfl

/-- Amended claim C5: provided the columns a function references are
present, every metrics function returns a result dict (never raises), with
an explicit error field on its degenerate inputs — empty cleaned data
(Brier/AUC/accuracy/calibration), single-class outcomes (AUC), no valid
odds rows (CLV), fewer than 20 valid odds rows (market baseline) — and CLV
and the market baseline return an error dict, rather than raising, when the
odds columns are missing; a missing probability or outcome column, however,
makes Brier/AUC/accuracy/calibration (and CLV) raise a `KeyError`. -/
theorem metrics_error_fields (or : Oracles) (df df2 : MFrame)
    (hp : df.hasProb = true) (ho : df.hasOutcome = true)
    (hh : df.hasHomeOdds = true) (ha : df.hasAwayOdds = true)
    (h2 : df2.hasHomeOdds = false ∨ df2.hasAwayOdds = false) :
    (∃ r, computeBrier df = Except.ok r)
    ∧ (∃ r, computeAuc or df = Except.ok r)
    ∧ (∃ r, computeAccuracy df = Except.ok r)
    ∧ (∃ r, computeCalibration or df = Except.ok r)
    ∧ (∃ r, computeClv or df = Except.ok r)
    ∧ (∀ d, dropnaProbOutcome df = Except.ok d → d = [] →
        computeBrier df = Except.ok (.err "no data")
        ∧ computeAuc or df = Except.ok (.err "no data")
        ∧ computeAccuracy df = Except.ok (.err "no data")
        ∧ computeCalibration or df = Except.ok (.err "no data"))
    ∧ (∀ d, dropnaProbOutcome df = Except.ok d → d ≠ [] →
        (d.map Prod.snd).dedup.length < 2 →
        computeAuc or df = Except.ok (.err "single class in outcomes"))
    ∧ (clvValues df = [] → computeClv or df = Except.ok (.err "no valid odds rows"))
    ∧ ((marketPoints (df.rows.map MRow.toORow)).length < 20 →
        computeMarketBaseline or df = .err "too few valid rows")
    ∧ computeClv or df2 = Except.ok (.err "odds columns not found")
    ∧ computeMarketBaseline or df2 = .err "missing columns" := by
  obtain ⟨dl, hdrop⟩ : ∃ dl, dropnaProbOutcome df = Except.ok dl :=
    ⟨df.rows.filterMap (fun r =>
        match r.prob, r.outcome with
        | some p, some y => some (p, y)
        | _, _ => none),
     by simp [dropnaProbOutcome, hp, ho]⟩
  have hha : (df.hasHomeOdds && df.hasAwayOdds) = true := by simp [hh, ha]
  have hha2 : (df2.hasHomeOdds && df2.hasAwayOdds) = false := by
    rcases h2 with h | h <;> simp [h]
  refine ⟨?_, ?_, ?_, ?_, ?_, ?_, ?_, ?_, ?_, ?_, ?_⟩
  · simp only [computeBrier, hdrop]
    by_cases hemp : dl.isEmpty = true
    · rw [if_pos hemp]; exact ⟨_, rfl⟩
    · rw [if_neg hemp]; exact ⟨_, rfl⟩
  · simp only [computeAuc, hdrop]
    by_cases hemp : dl.isEmpty = true
    · rw [if_pos hemp]; exact ⟨_, rfl⟩
    · rw [if_neg hemp]
      by_cases hded : (dl.map Prod.snd).dedup.length < 2
      · rw [if_pos hded]; exact ⟨_, rfl⟩
      · rw [if_neg hded]; exact ⟨_, rfl⟩
  · simp only [computeAccuracy, hdrop]
    by_cases hemp : dl.isEmpty = true
    · rw [if_pos hemp]; exact ⟨_, rfl⟩
    · rw [if_neg hemp]; exact ⟨_, rfl⟩
  · simp only [computeCalibration, hdrop]
    by_cases hemp : dl.isEmpty = true
    · rw [if_pos hemp]; exact ⟨_, rfl⟩
    · rw [if_neg hemp]
      rcases hcal : or.calFn (dl.map (fun py => (py.1, boolQ py.2))) 10 with e | av
      · rw [hcal]; exact ⟨_, rfl⟩
      · rw [hcal]; exact ⟨_, rfl⟩
  · simp only [computeClv, hha, Bool.not_true, Bool.false_eq_true, if_false, hp, if_neg]
    by_cases hemp : (clvValues df).isEmpty = true
    · rw [if_pos hemp]; exact ⟨_, rfl⟩
    · rw [if_neg hemp]; exact ⟨_, rfl⟩
  · intro d hd hdnil
    rw [hdrop] at hd
    obtain rfl : dl = d := by injection hd
    subst hdnil
    refine ⟨?_, ?_, ?_, ?_⟩ <;>
      simp [computeBrier, computeAuc, computeAccuracy, computeCalibration, hdrop]
  · intro d hd hdnil hded
    rw [hdrop] at hd
    obtain rfl : dl = d := by injection hd
    have hemp : dl.isEmpty = false := by
      cases hdl : dl with
      | nil => exact absurd hdl hdnil
      | cons a l => rfl
    simp only [computeAuc, hdrop, hemp, Bool.false_eq_true, if_false]
    rw [if_pos hded]
  · intro hclv
    simp only [computeClv, hha, Bool.not_true, Bool.false_eq_true, if_false, hp]
    rw [hclv]
    rfl
  · intro hlen
    have hc3 : (df.hasHomeOdds && df.hasAwayOdds && df.hasOutcome) = true := by
      simp [hh, ha, ho]
    simp only [computeMarketBaseline, hc3, Bool.not_true, Bool.false_eq_true, if_false]
    rw [if_pos hlen]
  · simp [computeClv, hha2]
  · have hc3 : (df2.hasHomeOdds && df2.hasAwayOdds && df2.hasOutcome) = false := by
      rcases h2 with h | h <;> simp [h]
    simp [computeMarketBaseline, hc3]

/-- Witness for C5 (amended): the guarantees instantiated on an empty frame
carrying all four columns, against a frame without the home-odds column. -/
theorem metrics_error_fields_witness :
    ∃ r, computeBrier ⟨true, true, true, true, []⟩ = Except.ok r :=
  (metrics_error_fields constOracles ⟨true, true, true, true, []⟩
    ⟨true, true, false, true, []⟩ rfl rfl rfl rfl (Or.inl rfl)).1

/-- Counterexample to claim C6: a dataset that already carries a `home_win`
column inconsistent with its scores (home 10, away 5, `home_win = 0`)
passes through `_prepare_data` unchanged — the harness only derives
`home_win` when the column is absent. -/
theorem harness_homewin_counterexample :
    ¬ (∀ r ∈ (prepareData (fun d => d)
          ⟨true, true, [⟨some "m1", some 0, 10, 5, some false, some 2024⟩]⟩).rows,
        r.homeWin = some (decide (r.awayScore < r.homeScore))) := by
  decide

/-- Amended claim C6: the harness derives `home_win = home_score > away_score`
for every row only when the input lacks a `home_win` column; an existing
column is kept as-is and may disagree with the scores.  The `DataLoader`
path, in contrast, always re-derives `home_win` from the stored scores. -/
theorem homewin_derivation (yearOf : Int → Int) (df : HFrame) (hasReq : Bool)
    (rows : List HRow) (h : df.hasHomeWin = false) :
    (∀ r ∈ (prepareData yearOf df).rows, r.homeWin = some (decide (r.awayScore < r.homeScore)))
    ∧ (∀ out, loaderValidateAndPrepare yearOf hasReq rows = Except.ok out →
        ∀ r ∈ out, r.homeWin = some (decide (r.awayScore < r.homeScore))) := by
  constructor
  · intro r hr
    simp only [prepareData, h, Bool.false_eq_true, if_false] at hr
    by_cases hs : df.hasSeason = true
    · rw [if_pos hs] at hr
      obtain ⟨r0, -, rfl⟩ := List.mem_map.mp hr
      rfl
    · rw [if_neg hs] at hr
      obtain ⟨r1, hr1, rfl⟩ := List.mem_map.mp hr
      obtain ⟨r0, -, rfl⟩ := List.mem_map.mp hr1
      rfl
  · intro out hout r hr
    by_cases hreq : hasReq = true
    · simp only [loaderValidateAndPrepare, hreq, Bool.not_true, Bool.false_eq_true, if_false,
        Except.ok.injEq] at hout
      subst hout
      obtain ⟨r0, -, rfl⟩ := List.mem_map.mp hr
      rfl
    · have hreq' : hasReq = false := by simpa using hreq
      simp [loaderValidateAndPrepare, hreq'] at hout

/-- Witness for C6 (amended): a one-row frame without a `home_win` column
gets the derived value (here `some false`, since the away side scored 7 to
3). -/
theorem homewin_derivation_witness :
    (⟨some "m", some 0, 3, 7, some false, some 0⟩ : HRow).homeWin
      = some (decide ((⟨some "m", some 0, 3, 7, some false, some 0⟩ : HRow).awayScore
          < (⟨some "m", some 0, 3, 7, some false, some 0⟩ : HRow).homeScore)) :=
  (homewin_derivation (fun d => d) ⟨false, false, [⟨some "m", some 0, 3, 7, none, none⟩]⟩
    true [] rfl).1 ⟨some "m", some 0, 3, 7, some false, some 0⟩ (by decide)

theorem meanQ_const (l : List ℚ) (c : ℚ) (hne : l ≠ []) (hall : ∀ x ∈ l, x = c) :
    meanQ l = c := by
  unfold meanQ
  rw [List.sum_eq_card_nsmul l c hall, nsmul_eq_mul]
  have hn : (l.length : ℚ) ≠ 0 := by
    have : l.length ≠ 0 := fun h0 => hne (List.length_eq_zero.mp h0)
    exact_mod_cast this
  exact mul_div_cancel_left₀ c hn

/-- Counterexample to claim C10: a non-empty predictions table whose only
outcome is class 1 but whose probability cell is null makes `compute_brier`
return the `{"error": "no data"}` dict, not a normal result. -/
theorem brier_singleclass_counterexample :
    ((⟨true, true, false, false, [⟨none, some true, none, none⟩]⟩ : MFrame).rows ≠ []
     ∧ (∀ r ∈ (⟨true, true, false, false, [⟨none, some true, none, none⟩]⟩ : MFrame).rows,
         r.outcome = some true))
    ∧ ¬ (∃ res : BrierOk,
          computeBrier ⟨true, true, false, false, [⟨none, some true, none, none⟩]⟩
            = Except.ok (.ok res)) := by
  refine ⟨⟨by decide, by decide⟩, ?_⟩
  rintro ⟨res, hres⟩
  have hval : computeBrier (⟨true, true, false, false, [⟨none, some true, none, none⟩]⟩ : MFrame)
      = Except.ok (.err "no data") := rfl
  rw [hval] at hres
  simp at hres

/-- Amended claim C10: on a predictions table carrying both columns, all of
whose outcomes are the same class, with at least one row whose probability
is present, `compute_brier` returns a normal result whose `brier_skill` is
exactly 0.0 (and whose base rate is 0 or 1) regardless of the predicted
probabilities, while `compute_auc` reports the single-class error. -/
theorem brier_singleclass_skill_zero (or : Oracles) (df : MFrame) (b : Bool)
    (hp : df.hasProb = true) (ho : df.hasOutcome = true)
    (hall : ∀ r ∈ df.rows, r.outcome = some b)
    (hne : ∃ r ∈ df.rows, r.prob ≠ none) :
    (∃ res : BrierOk, computeBrier df = Except.ok (.ok res)
       ∧ res.brierSkill = 0 ∧ (res.baseRate = 0 ∨ res.baseRate = 1))
    ∧ computeAuc or df = Except.ok (.err "single class in outcomes") := by
  obtain ⟨r, hrmem, hrprob⟩ := hne
  obtain ⟨q, hq⟩ : ∃ q, r.prob = some q := Option.ne_none_iff_exists'.mp hrprob
  have hdrop : dropnaProbOutcome df = Except.ok (df.rows.filterMap (fun r =>
      match r.prob, r.outcome with
      | some p, some y => some (p, y)
      | _, _ => none)) := by
    simp [dropnaProbOutcome, hp, ho]
  set dl := df.rows.filterMap (fun r =>
      match r.prob, r.outcome with
      | some p, some y => some (p, y)
      | _, _ => none) with hdl
  have hmem : (q, b) ∈ dl := by
    rw [hdl]
    refine List.mem_filterMap.mpr ⟨r, hrmem, ?_⟩
    rw [hq, hall r hrmem]
  have hdne : dl ≠ [] := fun hnil => by rw [hnil] at hmem; exact absurd hmem (by simp)
  have hemp : dl.isEmpty = false := by
    cases hdlc : dl with
    | nil => exact absurd hdlc hdne
    | cons a l => rfl
  have hsnd : ∀ py ∈ dl, Prod.snd py = b := by
    intro py hpy
    rw [hdl] at hpy
    obtain ⟨a, hamem, haeq⟩ := List.mem_filterMap.mp hpy
    rcases hpa : a.prob with _ | q2
    · rw [hpa] at haeq; simp at haeq
    · rcases hoa : a.outcome with _ | y
      · rw [hpa, hoa] at haeq; simp at haeq
      · rw [hpa, hoa] at haeq
        simp only [Option.some.injEq] at haeq
        have hyb : y = b := by
          have hob := hall a hamem
          rw [hoa] at hob
          exact Option.some.inj hob
        rw [← haeq, hyb]
  have hbase : meanQ (dl.map (fun py => boolQ py.2)) = boolQ b := by
    apply meanQ_const
    · simpa using hdne
    · intro x hx
      obtain ⟨py, hpy, rfl⟩ := List.mem_map.mp hx
      rw [hsnd py hpy]
  have hbrier : computeBrier df = Except.ok (.ok
      ⟨dl.length, meanQ (dl.map (fun py => (py.1 - boolQ py.2) ^ 2)), 0, boolQ b⟩) := by
    simp only [computeBrier, hdrop, ← hdl, hemp, Bool.false_eq_true, if_false]
    rw [hbase]
    have hclim : ¬ (0 < boolQ b * (1 - boolQ b)) := by cases b <;> simp [boolQ]
    rw [if_neg hclim]
  have hdedup : (dl.map Prod.snd).dedup.length < 2 := by
    have hsub : ∀ x ∈ (dl.map Prod.snd).dedup, x = b := by
      intro x hx
      obtain ⟨py, hpy, rfl⟩ := List.mem_map.mp (List.mem_dedup.mp hx)
      exact hsnd py hpy
    have hnd : (dl.map Prod.snd).dedup.Nodup := List.nodup_dedup _
    rcases hd2 : (dl.map Prod.snd).dedup with _ | ⟨x, _ | ⟨y, tl⟩⟩
    · simp
    · simp
    · exfalso
      rw [hd2] at hsub hnd
      have hx : x = b := hsub x (by simp)
      have hy : y = b := hsub y (by simp)
      have := (List.pairwise_cons.mp hnd).1 y (by simp)
      exact this (hx.trans hy.symm)
  have hauc : computeAuc or df = Except.ok (.err "single class in outcomes") := by
    simp only [computeAuc, hdrop, ← hdl, hemp, Bool.false_eq_true, if_false]
    rw [if_pos hdedup]
  exact ⟨⟨_, hbrier, rfl, by cases b <;> simp [boolQ]⟩, hauc⟩

/-- Witness for C10 (amended): one valid all-home-win row. -/
theorem brier_singleclass_witness :
    computeAuc constOracles ⟨true, true, false, false, [⟨some 1, some true, none, none⟩]⟩
      = Except.ok (.err "single class in outcomes") :=
  (brier_singleclass_skill_zero constOracles
    ⟨true, true, false, false, [⟨some 1, some true, none, none⟩]⟩ true rfl rfl
    (by decide) ⟨⟨some 1, some true, none, none⟩, by decide, by decide⟩).2

/-- The rows returned by `PITValidator.validate` do not depend on the
validator state it was called in (only the log written back does). -/
theorem pitValidate_snd {α : Type} (dateOf : α → Option Int) (hc : Bool) (st st2 : PITState)
    (fn : String) (rows : List α) (cutoff : Option Int) :
    (pitValidate dateOf hc st fn rows cutoff).2 = (pitValidate dateOf hc st2 fn rows cutoff).2 := by
  by_cases h1 : rows.isEmpty = true <;> by_cases h2 : hc = true <;>
    simp [pitValidate, h1, h2]

theorem getTeamHistory_snd (data : List GMatch) (st st2 : PITState) (team : String)
    (before : Option Int) :
    (getTeamHistory data st team before).2 = (getTeamHistory data st2 team before).2 := by
  by_cases h : teamAppears data team = true
  · simp only [getTeamHistory, h, if_true]
    rw [pitValidate_snd (fun r : TGRow => r.game.date) true st st2]
  · simp only [getTeamHistory, h, Bool.false_eq_true, if_false]

theorem computeH2h_snd (data : List GMatch) (st st2 : PITState) (home away : String)
    (before : Option Int) (window : Nat) :
    (computeH2h data st home away before window).2
      = (computeH2h data st2 home away before window).2 := by
  simp only [computeH2h, apply_ite Prod.snd,
    pitValidate_snd GMatch.date true st st2]

/-- The feature row computed for a match does not depend on the validator
state: every `compute_features` output equals the pure per-match value. -/
theorem computeFeatures_snd (rpow : ℚ → ℚ → ℚ) (cfg : Config) (hist : List GMatch)
    (st st2 : PITState) (m : GMatch) :
    (computeFeatures rpow cfg hist st m).2 = (computeFeatures rpow cfg hist st2 m).2 := by
  simp only [computeFeatures]
  rw [getTeamHistory_snd (engineData hist) st st2 m.homeTeam m.date,
      getTeamHistory_snd (engineData hist)
        (getTeamHistory (engineData hist) st m.homeTeam m.date).1
        (getTeamHistory (engineData hist) st2 m.homeTeam m.date).1 m.awayTeam m.date,
      computeH2h_snd (engineData hist)
        (getTeamHistory (engineData hist)
          (getTeamHistory (engineData hist) st m.homeTeam m.date).1 m.awayTeam m.date).1
        (getTeamHistory (engineData hist)
          (getTeamHistory (engineData hist) st2 m.homeTeam m.date).1 m.awayTeam m.date).1
        m.homeTeam m.awayTeam m.date 10]

theorem buildFeatureMatrix_map (rpow : ℚ → ℚ → ℚ) (cfg : Config) (hist : List GMatch) :
    ∀ (ms : List GMatch) (st : PITState),
      (buildFeatureMatrix rpow cfg hist st ms).2
        = ms.map (computeFeaturesPure rpow cfg hist) := by
  intro ms
  induction ms with
  | nil => intro st; rfl
  | cons m ms ih =>
    intro st
    show (computeFeatures rpow cfg hist st m).2
        :: (buildFeatureMatrix rpow cfg hist (computeFeatures rpow cfg hist st m).1 ms).2
      = computeFeaturesPure rpow cfg hist m :: ms.map (computeFeaturesPure rpow cfg hist)
    rw [ih]
    exact congrArg₂ List.cons (computeFeatures_snd rpow cfg hist st pitInit m) rfl

/-- Claim C8: for a fixed historical dataset, the feature rows produced by
`build_feature_matrix` are the per-match pure values in input order — so no
match's features depend on another match's features or on the processing
order — and any permutation of the requested matches (from any validator
state) permutes the produced rows with identical per-match values. -/
theorem build_feature_matrix_permutation (rpow : ℚ → ℚ → ℚ) (cfg : Config)
    (hist : List GMatch) (st st2 : PITState) (ms ms2 : List GMatch)
    (hperm : ms.Perm ms2) :
    (buildFeatureMatrix rpow cfg hist st ms).2 = ms.map (computeFeaturesPure rpow cfg hist)
    ∧ (buildFeatureMatrix rpow cfg hist st2 ms2).2 = ms2.map (computeFeaturesPure rpow cfg hist)
    ∧ ((buildFeatureMatrix rpow cfg hist st ms).2).Perm
        ((buildFeatureMatrix rpow cfg hist st2 ms2).2) := by
  refine ⟨buildFeatureMatrix_map rpow cfg hist ms st,
    buildFeatureMatrix_map rpow cfg hist ms2 st2, ?_⟩
  rw [buildFeatureMatrix_map rpow cfg hist ms st, buildFeatureMatrix_map rpow cfg hist ms2 st2]
  exact hperm.map _

/-- Witness for C8: two matches in both orders over a two-match history. -/
theorem build_feature_matrix_permutation_witness :
    ((buildFeatureMatrix (fun a _ => a) defaultConfig
        [⟨"a", some 0, "T1", "T2", 10, 5⟩, ⟨"b", some 1, "T1", "T2", 7, 7⟩] pitInit
        [⟨"a", some 0, "T1", "T2", 10, 5⟩, ⟨"b", some 1, "T1", "T2", 7, 7⟩]).2).Perm
      ((buildFeatureMatrix (fun a _ => a) defaultConfig
        [⟨"a", some 0, "T1", "T2", 10, 5⟩, ⟨"b", some 1, "T1", "T2", 7, 7⟩] pitInit
        [⟨"b", some 1, "T1", "T2", 7, 7⟩, ⟨"a", some 0, "T1", "T2", 10, 5⟩]).2) :=
  (build_feature_matrix_permutation (fun a _ => a) defaultConfig
    [⟨"a", some 0, "T1", "T2", 10, 5⟩, ⟨"b", some 1, "T1", "T2", 7, 7⟩] pitInit pitInit
    [⟨"a", some 0, "T1", "T2", 10, 5⟩, ⟨"b", some 1, "T1", "T2", 7, 7⟩]
    [⟨"b", some 1, "T1", "T2", 7, 7⟩, ⟨"a", some 0, "T1", "T2", 10, 5⟩]
    (by decide)).2.2

end NRL
